import Mathlib

/-!
# Verification of the `nst` money-transfer subsystem

Shallow embedding of the transfer engine (`src/balance/balance.service.ts`),
the account repository (`src/users/repositories/user.repository.ts`) and the
balance-reset consumer (`src/balance-reset/balance-reset.consumer.ts`).

Modelling conventions:
* JavaScript numbers carrying money are modelled as `ℚ`; the code rounds every
  mutated balance with `Number(x.toFixed(2))`, which we model as round-half-up
  to 2 decimal places (`toFixed2`).  All monetary values reaching the code are
  2-decimal values (DTO validation enforces `maxDecimalPlaces: 2`; the balance
  column is a 2-decimal-place decimal), on which this model is exact.
* The account store is a list of rows keyed by `login`; `findByLogin` is the
  first match, `save` an upsert.  Storage accesses issued by an operation are
  recorded in a trace of `StorageOp`s so that claims about lookup order and
  about the absence of storage access can be stated.
* Thrown `BadRequestException` / `NotFoundException` become an `Except` error
  result; the `@Transactional` decorator's rollback semantics mean a thrown
  error leaves the store unchanged, which the embedding reflects by returning
  the unmodified store on every error path.
-/

/-- Account row. Modelled from the spec: the committed `user.entity.ts` lacks
the `balance` column that the transfer code reads and writes; per the spec's
data model an account is a `login` (primary key) plus a decimal `balance`
with 2 decimal places of precision.  The remaining profile columns (email,
password, age, description) never influence balance semantics and are
omitted from the model. -/
structure User where
  login : String
  balance : ℚ
deriving DecidableEq, Repr

/-- The account store: the rows of the user table. -/
abbrev Store := List User

/-- `transfer.dto.ts`: `{from, to, amount}` (`from`/`to` are Lean keywords,
hence the trailing underscores). -/
structure TransferDto where
  from_ : String
  to_ : String
  amount : ℚ
deriving DecidableEq, Repr

/-- The two HTTP exception classes thrown by the transfer code
(`BadRequestException`, `NotFoundException`), with their message. -/
inductive HttpError where
  | badRequest (message : String)
  | notFound (message : String)
deriving DecidableEq, Repr

/-- Return value of a successful transfer:
`{ fromUser, toUser, transferredAmount }`. -/
structure TransferResult where
  fromUser : User
  toUser : User
  transferredAmount : ℚ
deriving DecidableEq, Repr

/-- A storage access: a single-row read (with its lock mode, `""` when no
lock is requested) or a batch save of the named rows. -/
inductive StorageOp where
  | find (login : String) (lock : String)
  | saveAll (logins : List String)
deriving DecidableEq, Repr

/-- `repository.findOne({where: {login}})` / the query-builder single-row
read: first row whose `login` matches. -/
def findByLogin (store : Store) (login : String) : Option User :=
  store.find? (fun u => u.login = login)

/-- TypeORM `save` of one entity: update the row with the same primary key
when it exists, insert otherwise. -/
def saveUser (store : Store) (u : User) : Store :=
  if store.any (fun v => v.login = u.login) then
    store.map (fun v => if v.login = u.login then u else v)
  else
    store ++ [u]

/-- `repository.save([...])`: persist a batch of entities. -/
def saveAllUsers (store : Store) (us : List User) : Store :=
  us.foldl saveUser store

/-- `JSON` number → `Number(x)`: on values that are already numbers this is
the identity, and the model keeps balances numeric throughout. -/
def jsNumber (x : ℚ) : ℚ := x

/-- Floor of a rational, computed as in `Rat`: numerator integer-divided by
denominator (Euclidean division, so this is the mathematical floor). -/
def ratFloor (x : ℚ) : ℤ := x.num / (x.den : ℤ)

/-- `Number(x.toFixed(2))`: round to 2 decimal places, half away from zero
for the nonnegative values the code produces (ECMAScript `toFixed` picks the
larger candidate on ties). -/
def toFixed2 (x : ℚ) : ℚ := ((ratFloor (x * 100 + 1/2) : ℤ) : ℚ) / 100

/-- `x.toFixed(2)` as a string, for the nonnegative amounts that reach the
insufficient-funds message: whole part, a dot, and a zero-padded 2-digit
fractional part. -/
def toFixed2Str (x : ℚ) : String :=
  let cents : ℤ := ratFloor (x * 100 + 1/2)
  let whole : ℤ := cents / 100
  let frac : ℤ := cents % 100
  toString whole ++ "." ++ (if frac < 10 then "0" else "") ++ toString frac

/-- `[from, to].sort()`: JavaScript's default sort on two strings orders
them lexicographically. -/
def sortPair (a b : String) : String × String :=
  if a ≤ b then (a, b) else (b, a)

/-- The message of the `NotFoundException` thrown for a missing login. -/
def notFoundMsg (login : String) : String :=
  "User with login " ++ login ++ " not found"

/-- The message of the insufficient-funds `BadRequestException`. -/
def insufficientMsg (available required : ℚ) : String :=
  "Insufficient funds. Available: $" ++ toFixed2Str available ++
    ", Required: $" ++ toFixed2Str required

deriving instance DecidableEq for Except

namespace BalanceService

/-- `BalanceService.transfer` (`src/balance/balance.service.ts`): the
transfer engine wired to `POST /balance/transfer`.  Returns the outcome, the
store after the call (unchanged on every thrown error, by transactional
rollback), and the trace of storage operations issued. -/
def transfer (store : Store) (dto : TransferDto) :
    Except HttpError TransferResult × Store × List StorageOp :=
  if dto.from_ = dto.to_ then
    (.error (.badRequest "Cannot transfer money to yourself"), store, [])
  else
    let user1Login := (sortPair dto.from_ dto.to_).1
    let user2Login := (sortPair dto.from_ dto.to_).2
    let user1 := findByLogin store user1Login
    let user2 := findByLogin store user2Login
    let ops := [StorageOp.find user1Login "pessimistic_write",
                StorageOp.find user2Login "pessimistic_write"]
    let fromUser := if user1Login = dto.from_ then user1 else user2
    let toUser := if user1Login = dto.to_ then user1 else user2
    match fromUser with
    | none => (.error (.notFound (notFoundMsg dto.from_)), store, ops)
    | some fu =>
      match toUser with
      | none => (.error (.notFound (notFoundMsg dto.to_)), store, ops)
      | some tu =>
        let fromUserBalance := jsNumber fu.balance
        if fromUserBalance < dto.amount then
          (.error (.badRequest (insufficientMsg fromUserBalance dto.amount)),
           store, ops)
        else
          let fu2 : User := { fu with balance := toFixed2 (fromUserBalance - dto.amount) }
          let tu2 : User := { tu with balance := toFixed2 (jsNumber tu.balance + dto.amount) }
          (.ok { fromUser := fu2, toUser := tu2, transferredAmount := dto.amount },
           saveAllUsers store [fu2, tu2],
           ops ++ [StorageOp.saveAll [fu2.login, tu2.login]])

end BalanceService

namespace UserRepository

/-- `UserRepository.transfer` (`src/users/repositories/user.repository.ts`):
the repository-level transfer.  Unlike the service-level engine it has no
self-transfer guard, looks the two rows up in caller order (sender first)
without a lock, and is demarcated `REPEATABLE READ`. -/
def transfer (store : Store) (dto : TransferDto) :
    Except HttpError TransferResult × Store × List StorageOp :=
  let fromUser := findByLogin store dto.from_
  let toUser := findByLogin store dto.to_
  let ops := [StorageOp.find dto.from_ "", StorageOp.find dto.to_ ""]
  match fromUser with
  | none => (.error (.notFound (notFoundMsg dto.from_)), store, ops)
  | some fu =>
    match toUser with
    | none => (.error (.notFound (notFoundMsg dto.to_)), store, ops)
    | some tu =>
      let fromUserBalance := jsNumber fu.balance
      if fromUserBalance < dto.amount then
        (.error (.badRequest (insufficientMsg fromUserBalance dto.amount)),
         store, ops)
      else
        let fu2 : User := { fu with balance := toFixed2 (fromUserBalance - dto.amount) }
        let tu2 : User := { tu with balance := toFixed2 (jsNumber tu.balance + dto.amount) }
        (.ok { fromUser := fu2, toUser := tu2, transferredAmount := dto.amount },
         saveAllUsers store [fu2, tu2],
         ops ++ [StorageOp.saveAll [fu2.login, tu2.login]])

/-- `UserRepository.resetBalance`: `UPDATE user SET balance = 0` — every
row's balance set to 0 in a single statement. -/
def resetBalance (store : Store) : Store :=
  store.map (fun u => { u with balance := 0 })

end UserRepository

/-- TypeORM transaction isolation levels (`IsolationLevel` of
`typeorm-transactional`). -/
inductive IsolationLevel where
  | readUncommitted
  | readCommitted
  | repeatableRead
  | serializable
deriving DecidableEq, Repr

/-- Strictness order of the isolation levels. -/
def IsolationLevel.strength : IsolationLevel → Nat
  | .readUncommitted => 0
  | .readCommitted => 1
  | .repeatableRead => 2
  | .serializable => 3

/-- Does a `@Transactional` configuration demand at least REPEATABLE READ?
`none` means the decorator names no isolation level, so the transaction runs
at the storage engine's default level, which is weaker. -/
def atLeastRepeatableRead : Option IsolationLevel → Bool
  | some l => decide (IsolationLevel.strength .repeatableRead ≤ l.strength)
  | none => false

/-- `BalanceService.transfer` is decorated `@Transactional()`: a single
transaction for the whole method body. -/
def BalanceService.transferTransactional : Bool := true

/-- The isolation level named by the `@Transactional()` decorator on
`BalanceService.transfer`: none — the decorator takes no argument there. -/
def BalanceService.transferIsolation : Option IsolationLevel := none

/-- `UserRepository.transfer` is decorated
`@Transactional({isolationLevel: IsolationLevel.REPEATABLE_READ})`. -/
def UserRepository.transferTransactional : Bool := true

/-- The isolation level named on `UserRepository.transfer`. -/
def UserRepository.transferIsolation : Option IsolationLevel :=
  some .repeatableRead

/-- The isolation level named on `UserRepository.resetBalance`
(`READ_UNCOMMITTED`). -/
def UserRepository.resetBalanceIsolation : Option IsolationLevel :=
  some .readUncommitted

/-- A log line emitted by the balance-reset consumer: `logger.log` becomes
`info`, `logger.error(msg, err)` becomes `errorWith` carrying the caught
error. -/
inductive LogEvent (E : Type) where
  | info (msg : String)
  | errorWith (msg : String) (err : E)
deriving DecidableEq, Repr

namespace BalanceResetConsumer

/-- `BalanceResetConsumer.process`
(`src/balance-reset/balance-reset.consumer.ts`): logs the start line, runs
the balance reset, then either logs success or logs the caught error and
rethrows it unchanged.  The outcome of the underlying reset (which may fail
with any error `e : E`) is the parameter; the function returns the
consumer's own outcome together with the emitted log lines. -/
def process {E : Type} (resetOutcome : Except E Unit) :
    Except E Unit × List (LogEvent E) :=
  match resetOutcome with
  | .ok _ =>
    (.ok (),
     [.info "Starting reset balances job...",
      .info "Successfully reset all user balances"])
  | .error e =>
    (.error e,
     [.info "Starting reset balances job...",
      .errorWith "Error resetting balances:" e])

end BalanceResetConsumer

/-- Total balance held in the store (the conserved quantity). -/
def storeSum (store : Store) : ℚ :=
  (store.map User.balance).sum

/-- A value with at most 2 decimal places — the form every balance and every
validated transfer amount has (`@IsNumber({maxDecimalPlaces: 2})` on the
DTO; 2-decimal `decimal` column for balances). -/
def isTwoDp (x : ℚ) : Prop :=
  ∃ n : ℤ, x = (n : ℚ) / 100

/-- The two locking reads a transfer issues, in sorted-login order. -/
def lockOps (f t : String) : List StorageOp :=
  [StorageOp.find (sortPair f t).1 "pessimistic_write",
   StorageOp.find (sortPair f t).2 "pessimistic_write"]

/-! ## Basic lemmas about the model -/

lemma ratFloor_eq_floor (x : ℚ) : ratFloor x = ⌊x⌋ :=
  Rat.floor_def.symm

lemma ratFloor_eval (x : ℚ) (z : ℤ) (h1 : (z : ℚ) ≤ x) (h2 : x < z + 1) :
    ratFloor x = z := by
  rw [ratFloor_eq_floor]
  exact Int.floor_eq_iff.mpr ⟨h1, h2⟩

/-- Rounding to 2 decimal places is the identity on values that already
have 2 decimal places. -/
lemma toFixed2_twoDp (n : ℤ) : toFixed2 ((n : ℚ) / 100) = (n : ℚ) / 100 := by
  unfold toFixed2
  rw [show ((n : ℚ) / 100 * 100 + 1/2) = (n : ℚ) + 1/2 by ring]
  rw [ratFloor_eval ((n : ℚ) + 1/2) n (by norm_num) (by norm_num)]

lemma toFixed2_of_isTwoDp {x : ℚ} (h : isTwoDp x) : toFixed2 x = x := by
  obtain ⟨n, rfl⟩ := h
  exact toFixed2_twoDp n

lemma isTwoDp_sub {x y : ℚ} (hx : isTwoDp x) (hy : isTwoDp y) :
    isTwoDp (x - y) := by
  obtain ⟨n, rfl⟩ := hx
  obtain ⟨m, rfl⟩ := hy
  exact ⟨n - m, by push_cast; ring⟩

lemma isTwoDp_add {x y : ℚ} (hx : isTwoDp x) (hy : isTwoDp y) :
    isTwoDp (x + y) := by
  obtain ⟨n, rfl⟩ := hx
  obtain ⟨m, rfl⟩ := hy
  exact ⟨n + m, by push_cast; ring⟩

lemma toFixed2_zero : toFixed2 0 = 0 := by
  have h := toFixed2_twoDp 0
  simpa using h

lemma findByLogin_login {s : Store} {l : String} {u : User}
    (h : findByLogin s l = some u) : u.login = l := by
  have := List.find?_some h
  exact of_decide_eq_true this

lemma findByLogin_mem {s : Store} {l : String} {u : User}
    (h : findByLogin s l = some u) : u ∈ s :=
  List.mem_of_find?_eq_some h

lemma findByLogin_cons_pos {x : User} {s : Store} {l : String}
    (h : x.login = l) : findByLogin (x :: s) l = some x := by
  simp [findByLogin, List.find?_cons_of_pos, h]

lemma findByLogin_cons_neg {x : User} {s : Store} {l : String}
    (h : x.login ≠ l) : findByLogin (x :: s) l = findByLogin s l := by
  simp only [findByLogin]
  rw [List.find?_cons_of_neg]
  simp [h]

/-- Replacing a login that does not occur leaves the store unchanged. -/
lemma map_replace_of_not_mem (s : Store) (u : User)
    (h : ∀ v ∈ s, v.login ≠ u.login) :
    s.map (fun v => if v.login = u.login then u else v) = s := by
  induction s with
  | nil => rfl
  | cons x xs ih =>
    simp only [List.map_cons, List.cons.injEq]
    constructor
    · rw [if_neg (h x (List.mem_cons_self x xs))]
    · exact ih (fun v hv => h v (List.mem_cons_of_mem x hv))

/-- Replacement preserves the login column. -/
lemma map_replace_logins (s : Store) (u : User) :
    (s.map (fun v => if v.login = u.login then u else v)).map User.login =
      s.map User.login := by
  rw [List.map_map]
  apply List.map_congr_left
  intro v _
  by_cases h : v.login = u.login
  · simp [h]
  · simp [h]

/-- Sum of balances after replacing the (unique) row with `u`'s login. -/
lemma sum_map_replace (s : Store) (u w : User)
    (hnd : (s.map User.login).Nodup)
    (hf : findByLogin s u.login = some w) :
    storeSum (s.map (fun v => if v.login = u.login then u else v)) =
      storeSum s - w.balance + u.balance := by
  induction s with
  | nil => simp [findByLogin] at hf
  | cons x xs ih =>
    rw [List.map_cons, List.nodup_cons] at hnd
    by_cases hx : x.login = u.login
    · have hw : w = x := by
        have hsome : findByLogin (x :: xs) u.login = some x :=
          findByLogin_cons_pos hx
        rw [hf] at hsome
        exact (Option.some.injEq _ _).mp hsome
      subst hw
      have hrest : ∀ v ∈ xs, v.login ≠ u.login := by
        intro v hv hvl
        exact hnd.1 (hx ▸ hvl ▸ List.mem_map_of_mem User.login hv)
      rw [List.map_cons, if_pos hx, map_replace_of_not_mem xs u hrest]
      simp [storeSum]
      ring
    · have hf' : findByLogin xs u.login = some w := by
        rw [← findByLogin_cons_neg hx, hf]
      rw [List.map_cons, if_neg hx]
      have := ih hnd.2 hf'
      simp only [storeSum, List.map_cons, List.sum_cons] at this ⊢
      rw [this]
      ring

/-- Lookup of a different login is unaffected by replacement. -/
lemma findByLogin_replace_ne (s : Store) (u : User) (l : String)
    (hne : l ≠ u.login) :
    findByLogin (s.map (fun v => if v.login = u.login then u else v)) l =
      findByLogin s l := by
  induction s with
  | nil => rfl
  | cons x xs ih =>
    rw [List.map_cons]
    by_cases hx : x.login = u.login
    · rw [if_pos hx]
      rw [findByLogin_cons_neg (Ne.symm hne)]
      rw [findByLogin_cons_neg (hx ▸ Ne.symm hne)]
      exact ih
    · rw [if_neg hx]
      by_cases hxl : x.login = l
      · rw [findByLogin_cons_pos hxl, findByLogin_cons_pos hxl]
      · rw [findByLogin_cons_neg hxl, findByLogin_cons_neg hxl]
        exact ih

/-- When the login is present, `saveUser` is pure replacement. -/
lemma saveUser_of_found {s : Store} {u w : User}
    (hf : findByLogin s u.login = some w) :
    saveUser s u = s.map (fun v => if v.login = u.login then u else v) := by
  unfold saveUser
  rw [if_pos]
  refine List.any_eq_true.mpr ⟨w, findByLogin_mem hf, ?_⟩
  exact decide_eq_true (findByLogin_login hf)

lemma saveUser_sum {s : Store} {u w : User}
    (hnd : (s.map User.login).Nodup)
    (hf : findByLogin s u.login = some w) :
    storeSum (saveUser s u) = storeSum s - w.balance + u.balance := by
  rw [saveUser_of_found hf]
  exact sum_map_replace s u w hnd hf

lemma saveUser_find_ne {s : Store} {u w : User} {l : String}
    (hf : findByLogin s u.login = some w) (hne : l ≠ u.login) :
    findByLogin (saveUser s u) l = findByLogin s l := by
  rw [saveUser_of_found hf]
  exact findByLogin_replace_ne s u l hne

lemma saveUser_logins {s : Store} {u w : User}
    (hf : findByLogin s u.login = some w) :
    (saveUser s u).map User.login = s.map User.login := by
  rw [saveUser_of_found hf]
  exact map_replace_logins s u

/-! ## Path lemmas for `BalanceService.transfer` -/

lemma sortPair_le {a b : String} (h : a ≤ b) : sortPair a b = (a, b) := by
  simp [sortPair, h]

lemma sortPair_gt {a b : String} (h : ¬ a ≤ b) : sortPair a b = (b, a) := by
  simp [sortPair, h]

lemma transfer_notFound_from (store : Store) (f t : String) (a : ℚ)
    (hft : f ≠ t) (hf : findByLogin store f = none) :
    BalanceService.transfer store ⟨f, t, a⟩ =
      (.error (.notFound (notFoundMsg f)), store, lockOps f t) := by
  by_cases hle : f ≤ t
  · simp [BalanceService.transfer, lockOps, sortPair_le hle, hft, hf]
  · simp [BalanceService.transfer, lockOps, sortPair_gt hle, hft, Ne.symm hft, hf]

lemma transfer_notFound_to (store : Store) (f t : String) (a : ℚ) (fu : User)
    (hft : f ≠ t) (hf : findByLogin store f = some fu)
    (ht : findByLogin store t = none) :
    BalanceService.transfer store ⟨f, t, a⟩ =
      (.error (.notFound (notFoundMsg t)), store, lockOps f t) := by
  by_cases hle : f ≤ t
  · simp [BalanceService.transfer, lockOps, sortPair_le hle, hft, hf, ht]
  · simp [BalanceService.transfer, lockOps, sortPair_gt hle, hft, Ne.symm hft, hf, ht]

lemma transfer_insufficient (store : Store) (f t : String) (a : ℚ)
    (fu tu : User)
    (hft : f ≠ t) (hf : findByLogin store f = some fu)
    (ht : findByLogin store t = some tu) (hlt : fu.balance < a) :
    BalanceService.transfer store ⟨f, t, a⟩ =
      (.error (.badRequest (insufficientMsg fu.balance a)), store,
       lockOps f t) := by
  by_cases hle : f ≤ t
  · simp [BalanceService.transfer, lockOps, jsNumber, sortPair_le hle,
          hft, hf, ht, hlt]
  · simp [BalanceService.transfer, lockOps, jsNumber, sortPair_gt hle,
          hft, Ne.symm hft, hf, ht, hlt]

lemma transfer_success (store : Store) (f t : String) (a : ℚ) (fu tu : User)
    (hft : f ≠ t) (hf : findByLogin store f = some fu)
    (ht : findByLogin store t = some tu) (hge : ¬ fu.balance < a) :
    BalanceService.transfer store ⟨f, t, a⟩ =
      (.ok { fromUser := { fu with balance := toFixed2 (fu.balance - a) },
             toUser := { tu with balance := toFixed2 (tu.balance + a) },
             transferredAmount := a },
       saveAllUsers store
         [{ fu with balance := toFixed2 (fu.balance - a) },
          { tu with balance := toFixed2 (tu.balance + a) }],
       lockOps f t ++ [StorageOp.saveAll [fu.login, tu.login]]) := by
  by_cases hle : f ≤ t
  · simp [BalanceService.transfer, lockOps, jsNumber, sortPair_le hle,
          hft, hf, ht, hge]
  · simp [BalanceService.transfer, lockOps, jsNumber, sortPair_gt hle,
          hft, Ne.symm hft, hf, ht, hge]

/-- On every non-self transfer the trace starts with the two locking reads
in sorted-login order, whatever the outcome. -/
lemma transfer_ops (store : Store) (f t : String) (a : ℚ) (hft : f ≠ t) :
    ∃ rest, (BalanceService.transfer store ⟨f, t, a⟩).2.2 =
      lockOps f t ++ rest := by
  rcases hfu : findByLogin store f with _ | fu
  · exact ⟨[], by rw [transfer_notFound_from store f t a hft hfu]; simp⟩
  · rcases htu : findByLogin store t with _ | tu
    · exact ⟨[], by rw [transfer_notFound_to store f t a fu hft hfu htu]; simp⟩
    · by_cases hlt : fu.balance < a
      · exact ⟨[], by
          rw [transfer_insufficient store f t a fu tu hft hfu htu hlt]; simp⟩
      · exact ⟨[StorageOp.saveAll [fu.login, tu.login]], by
          rw [transfer_success store f t a fu tu hft hfu htu hlt]⟩

/-! ## Claim theorems -/

/-- C2: for every login `X` and every amount, `transfer(X, X, amount)` fails
with the `BadRequestException` "Cannot transfer money to yourself", the
store is untouched, and the trace of storage operations is empty: no lookup
and no save is issued. -/
theorem transfer_self_rejected (store : Store) (X : String) (a : ℚ) :
    BalanceService.transfer store ⟨X, X, a⟩ =
      (.error (.badRequest "Cannot transfer money to yourself"), store, []) := by
  simp [BalanceService.transfer]

/-- C3: on every transfer of two distinct logins the storage trace begins
with two pessimistic-write reads whose logins are the two transfer logins in
lexicographic order — the lower login is read (and hence locked) first,
regardless of which of the two is the sender. -/
theorem transfer_lock_ordering (store : Store) (f t : String) (a : ℚ)
    (hft : f ≠ t) :
    ∃ u v rest,
      (BalanceService.transfer store ⟨f, t, a⟩).2.2 =
        StorageOp.find u "pessimistic_write" ::
          StorageOp.find v "pessimistic_write" :: rest ∧
      u ≤ v ∧ ((u = f ∧ v = t) ∨ (u = t ∧ v = f)) := by
  obtain ⟨rest, hrest⟩ := transfer_ops store f t a hft
  by_cases hle : f ≤ t
  · refine ⟨f, t, rest, ?_, hle, Or.inl ⟨rfl, rfl⟩⟩
    rw [hrest]
    simp [lockOps, sortPair_le hle]
  · refine ⟨t, f, rest, ?_, le_of_not_le hle, Or.inr ⟨rfl, rfl⟩⟩
    rw [hrest]
    simp [lockOps, sortPair_gt hle]

/-- Witness for C3 at the spec's example `transfer("zebra","apple",10)`:
the first locking read is for `apple`, the second for `zebra`. -/
theorem transfer_lock_ordering_witness :
    ∃ u v rest,
      (BalanceService.transfer [] ⟨"zebra", "apple", 10⟩).2.2 =
        StorageOp.find u "pessimistic_write" ::
          StorageOp.find v "pessimistic_write" :: rest ∧
      u ≤ v ∧ ((u = "zebra" ∧ v = "apple") ∨ (u = "apple" ∧ v = "zebra")) :=
  transfer_lock_ordering [] "zebra" "apple" 10 (by decide)

/-- C5: on a transfer of two distinct logins where either account is
missing, both locked lookups are still issued (the trace is exactly the two
locking reads), the call fails with a `NotFoundException` naming the missing
login (the sender when the sender is missing, otherwise the receiver), and
the store is unchanged. -/
theorem transfer_missing_account (store : Store) (f t : String) (a : ℚ)
    (hft : f ≠ t)
    (hmiss : findByLogin store f = none ∨ findByLogin store t = none) :
    BalanceService.transfer store ⟨f, t, a⟩ =
      (.error (.notFound (notFoundMsg
          (if findByLogin store f = none then f else t))),
       store, lockOps f t) := by
  by_cases hfn : findByLogin store f = none
  · rw [if_pos hfn]
    exact transfer_notFound_from store f t a hft hfn
  · rw [if_neg hfn]
    obtain ⟨fu, hfu⟩ := Option.ne_none_iff_exists'.mp hfn
    have htn : findByLogin store t = none := hmiss.resolve_left hfn
    exact transfer_notFound_to store f t a fu hft hfu htn

/-- Witness for C5: `transfer("ghost","user2",10)` fails naming `ghost`,
and `transfer("user1","ghost",10)` fails naming `ghost`; in both cases both
locked lookups ran and the store is unchanged. -/
theorem transfer_missing_account_witness :
    BalanceService.transfer [⟨"user2", 5⟩] ⟨"ghost", "user2", 10⟩ =
      (.error (.notFound (notFoundMsg "ghost")), [⟨"user2", 5⟩],
       lockOps "ghost" "user2") ∧
    BalanceService.transfer [⟨"user1", 5⟩] ⟨"user1", "ghost", 10⟩ =
      (.error (.notFound (notFoundMsg "ghost")), [⟨"user1", 5⟩],
       lockOps "user1" "ghost") := by
  constructor
  · have h := transfer_missing_account [⟨"user2", 5⟩] "ghost" "user2" 10
      (by decide) (Or.inl rfl)
    rwa [if_pos (by decide)] at h
  · have h := transfer_missing_account [⟨"user1", 5⟩] "user1" "ghost" 10
      (by decide) (Or.inr rfl)
    rwa [if_neg (by decide)] at h

lemma toFixed2_eval (x : ℚ) (n : ℤ) (h : x = (n : ℚ) / 100) :
    toFixed2 x = x :=
  h ▸ toFixed2_twoDp n

/-- C4: when the two logins are distinct, both accounts exist, and the
sender's balance is strictly below the amount, the transfer fails with the
insufficient-funds `BadRequestException` whose message renders the
available and required amounts with `toFixed(2)`; the store is unchanged
and the trace holds only the two locked reads — no save is issued. -/
theorem transfer_insufficient_funds_blocks (store : Store) (f t : String)
    (a : ℚ) (fu tu : User)
    (hft : f ≠ t) (hf : findByLogin store f = some fu)
    (ht : findByLogin store t = some tu) (hlt : fu.balance < a) :
    BalanceService.transfer store ⟨f, t, a⟩ =
      (.error (.badRequest (insufficientMsg fu.balance a)), store,
       lockOps f t) :=
  transfer_insufficient store f t a fu tu hft hf ht hlt

/-- Witness for C4 at the unit test's data: balance 100.50, amount 200 —
the message renders both amounts to 2 decimal places and nothing is saved. -/
theorem transfer_insufficient_funds_blocks_witness :
    BalanceService.transfer [⟨"user1", 201/2⟩, ⟨"user2", 201/4⟩]
        ⟨"user1", "user2", 200⟩ =
      (.error (.badRequest
         "Insufficient funds. Available: $100.50, Required: $200.00"),
       [⟨"user1", 201/2⟩, ⟨"user2", 201/4⟩], lockOps "user1" "user2") := by
  have h := transfer_insufficient_funds_blocks
    [⟨"user1", 201/2⟩, ⟨"user2", 201/4⟩] "user1" "user2" 200
    ⟨"user1", 201/2⟩ ⟨"user2", 201/4⟩
    (by decide) rfl rfl (by norm_num)
  rw [h]
  have hmsg : insufficientMsg (201/2) 200 =
      "Insufficient funds. Available: $100.50, Required: $200.00" := by
    simp only [insufficientMsg, toFixed2Str]
    rw [show ((201 : ℚ)/2 * 100 + 1/2) = 20101/2 by norm_num]
    rw [ratFloor_eval (20101/2) 10050 (by norm_num) (by norm_num)]
    rw [show ((200 : ℚ) * 100 + 1/2) = 40001/2 by norm_num]
    rw [ratFloor_eval (40001/2) 20000 (by norm_num) (by norm_num)]
    decide
  rw [hmsg]

/-- C7: with balances 100.00 and 50.00 and a transfer of 33.33 the returned
balances are exactly 66.67 (sender) and 83.33 (receiver); the mutated
balances are the 2-decimal roundings of `100 - 33.33` and `50 + 33.33`. -/
theorem transfer_rounding_example :
    (BalanceService.transfer [⟨"user1", 100⟩, ⟨"user2", 50⟩]
        ⟨"user1", "user2", 3333/100⟩).1 =
      .ok ⟨⟨"user1", 6667/100⟩, ⟨"user2", 8333/100⟩, 3333/100⟩ ∧
    toFixed2 ((100 : ℚ) - 3333/100) = 6667/100 ∧
    toFixed2 ((50 : ℚ) + 3333/100) = 8333/100 := by
  have e1 : toFixed2 ((100 : ℚ) - 3333/100) = 6667/100 := by
    rw [toFixed2_eval _ 6667 (by norm_num)]
    norm_num
  have e2 : toFixed2 ((50 : ℚ) + 3333/100) = 8333/100 := by
    rw [toFixed2_eval _ 8333 (by norm_num)]
    norm_num
  have h := transfer_success [⟨"user1", 100⟩, ⟨"user2", 50⟩] "user1" "user2"
    (3333/100) ⟨"user1", 100⟩ ⟨"user2", 50⟩ (by decide) rfl rfl (by norm_num)
  refine ⟨?_, e1, e2⟩
  rw [h]
  simp [e1, e2]

/-- C10: when the amount exactly equals the sender's balance the strict
funds check passes, the transfer succeeds, and the sender's resulting
balance is exactly 0 — the `balance ≥ 0` invariant holds at the boundary. -/
theorem transfer_exact_balance_succeeds (store : Store) (f t : String)
    (a : ℚ) (fu tu : User)
    (hft : f ≠ t) (hf : findByLogin store f = some fu)
    (ht : findByLogin store t = some tu) (heq : fu.balance = a) :
    ∃ r, (BalanceService.transfer store ⟨f, t, a⟩).1 = .ok r ∧
      r.fromUser.balance = 0 ∧ 0 ≤ r.fromUser.balance := by
  have hge : ¬ fu.balance < a := by
    rw [heq]
    exact lt_irrefl a
  have hz : toFixed2 (fu.balance - a) = 0 := by
    rw [heq, sub_self, toFixed2_zero]
  refine ⟨⟨{ fu with balance := toFixed2 (fu.balance - a) },
           { tu with balance := toFixed2 (tu.balance + a) }, a⟩, ?_, ?_, ?_⟩
  · rw [transfer_success store f t a fu tu hft hf ht hge]
  · simpa using hz
  · simp [hz]

/-- Witness for C10 at the unit test's edge case: balance 0.01, amount
0.01 — the transfer succeeds and leaves the sender at 0. -/
theorem transfer_exact_balance_succeeds_witness :
    ∃ r, (BalanceService.transfer [⟨"user1", 1/100⟩, ⟨"user2", 0⟩]
        ⟨"user1", "user2", 1/100⟩).1 = .ok r ∧
      r.fromUser.balance = 0 ∧ 0 ≤ r.fromUser.balance :=
  transfer_exact_balance_succeeds [⟨"user1", 1/100⟩, ⟨"user2", 0⟩]
    "user1" "user2" (1/100) ⟨"user1", 1/100⟩ ⟨"user2", 0⟩
    (by decide) rfl rfl rfl

/-- C1: a transfer that succeeds (distinct logins, both accounts present,
sufficient funds) conserves money: the returned sender and receiver
balances sum to the two prior balances, and the total balance of the store
is unchanged.  The hypotheses `isTwoDp` record the data-model invariant
that stored balances and validated amounts carry at most 2 decimal places
(`@IsNumber({maxDecimalPlaces: 2})`; 2-decimal balance column), under
which the post-mutation rounding is exact. -/
theorem transfer_conservation (store : Store) (f t : String) (a : ℚ)
    (fu tu : User)
    (hnd : (store.map User.login).Nodup)
    (hft : f ≠ t)
    (hf : findByLogin store f = some fu) (ht : findByLogin store t = some tu)
    (hle : a ≤ fu.balance)
    (h2f : isTwoDp fu.balance) (h2t : isTwoDp tu.balance)
    (h2a : isTwoDp a) :
    ∃ r, (BalanceService.transfer store ⟨f, t, a⟩).1 = .ok r ∧
      r.fromUser.balance + r.toUser.balance = fu.balance + tu.balance ∧
      storeSum (BalanceService.transfer store ⟨f, t, a⟩).2.1 =
        storeSum store := by
  have hge : ¬ fu.balance < a := not_lt.mpr hle
  have hflog : fu.login = f := findByLogin_login hf
  have htlog : tu.login = t := findByLogin_login ht
  have hsub : toFixed2 (fu.balance - a) = fu.balance - a :=
    toFixed2_of_isTwoDp (isTwoDp_sub h2f h2a)
  have hadd : toFixed2 (tu.balance + a) = tu.balance + a :=
    toFixed2_of_isTwoDp (isTwoDp_add h2t h2a)
  have h := transfer_success store f t a fu tu hft hf ht hge
  refine ⟨⟨{ fu with balance := toFixed2 (fu.balance - a) },
           { tu with balance := toFixed2 (tu.balance + a) }, a⟩,
         by rw [h], ?_, ?_⟩
  · show toFixed2 (fu.balance - a) + toFixed2 (tu.balance + a) =
      fu.balance + tu.balance
    rw [hsub, hadd]
    ring
  · rw [h]
    show storeSum
        (saveUser (saveUser store ⟨fu.login, toFixed2 (fu.balance - a)⟩)
          ⟨tu.login, toFixed2 (tu.balance + a)⟩) = storeSum store
    have hf1 : findByLogin store
        (⟨fu.login, toFixed2 (fu.balance - a)⟩ : User).login = some fu := by
      show findByLogin store fu.login = some fu
      rw [hflog]
      exact hf
    have hne1 : (⟨tu.login, toFixed2 (tu.balance + a)⟩ : User).login ≠
        (⟨fu.login, toFixed2 (fu.balance - a)⟩ : User).login := by
      show tu.login ≠ fu.login
      rw [hflog, htlog]
      exact Ne.symm hft
    have hfind2 : findByLogin
        (saveUser store ⟨fu.login, toFixed2 (fu.balance - a)⟩)
        (⟨tu.login, toFixed2 (tu.balance + a)⟩ : User).login = some tu := by
      rw [saveUser_find_ne hf1 hne1]
      show findByLogin store tu.login = some tu
      rw [htlog]
      exact ht
    have hnd1 : ((saveUser store
        ⟨fu.login, toFixed2 (fu.balance - a)⟩).map User.login).Nodup := by
      rw [saveUser_logins hf1]
      exact hnd
    rw [saveUser_sum hnd1 hfind2, saveUser_sum hnd hf1]
    show storeSum store - fu.balance + toFixed2 (fu.balance - a)
        - tu.balance + toFixed2 (tu.balance + a) = storeSum store
    rw [hsub, hadd]
    ring

/-- Witness for C1 at the unit test's data: 100.50 and 50.25, transfer
25.50 — the transfer succeeds and the total 150.75 is conserved. -/
theorem transfer_conservation_witness :
    ∃ r, (BalanceService.transfer [⟨"user1", 201/2⟩, ⟨"user2", 201/4⟩]
        ⟨"user1", "user2", 51/2⟩).1 = .ok r ∧
      r.fromUser.balance + r.toUser.balance =
        (⟨"user1", 201/2⟩ : User).balance + (⟨"user2", 201/4⟩ : User).balance ∧
      storeSum (BalanceService.transfer [⟨"user1", 201/2⟩, ⟨"user2", 201/4⟩]
        ⟨"user1", "user2", 51/2⟩).2.1 =
        storeSum [⟨"user1", 201/2⟩, ⟨"user2", 201/4⟩] :=
  transfer_conservation [⟨"user1", 201/2⟩, ⟨"user2", 201/4⟩]
    "user1" "user2" (51/2) ⟨"user1", 201/2⟩ ⟨"user2", 201/4⟩
    (by decide) (by decide) rfl rfl (by norm_num)
    ⟨10050, by norm_num⟩ ⟨5025, by norm_num⟩ ⟨2550, by norm_num⟩

/-- C6 counterexample: the claim "every transfer runs inside a transaction
with at least REPEATABLE READ isolation" is false of the engine actually
wired to `POST /balance/transfer`: `BalanceService.transfer` is decorated
with a bare `@Transactional()` that names no isolation level, so its
transaction runs at the storage engine's default level. -/
theorem transfer_isolation_counterexample :
    BalanceService.transferIsolation = none ∧
    atLeastRepeatableRead BalanceService.transferIsolation = false := by
  decide

/-- C6 amended: both transfer implementations are demarcated as a single
transaction by `@Transactional`; the repository-level transfer names
REPEATABLE READ (which satisfies "at least repeatable read"), but the
service-level transfer engine names no isolation level at all and so runs
at the connection's default isolation. -/
theorem transfer_isolation_config :
    BalanceService.transferTransactional = true ∧
    UserRepository.transferTransactional = true ∧
    UserRepository.transferIsolation = some IsolationLevel.repeatableRead ∧
    atLeastRepeatableRead UserRepository.transferIsolation = true ∧
    BalanceService.transferIsolation = none ∧
    atLeastRepeatableRead BalanceService.transferIsolation = false := by
  decide

/-- C8: resetting all balances zeroes every account, and a second reset
right after is a no-op on state (it finds every balance already 0 and sets
it to 0 again); the model of the single-statement `UPDATE` is total, so
the second call cannot fail. -/
theorem resetBalance_idempotent (store : Store) :
    (∀ u ∈ UserRepository.resetBalance store, u.balance = 0) ∧
    (∀ u ∈ UserRepository.resetBalance (UserRepository.resetBalance store),
      u.balance = 0) ∧
    UserRepository.resetBalance (UserRepository.resetBalance store) =
      UserRepository.resetBalance store := by
  refine ⟨?_, ?_, ?_⟩
  · intro u hu
    obtain ⟨v, _, rfl⟩ := List.mem_map.mp hu
    rfl
  · intro u hu
    obtain ⟨v, _, rfl⟩ := List.mem_map.mp
      (by simpa [UserRepository.resetBalance, List.map_map] using hu)
    rfl
  · simp [UserRepository.resetBalance, List.map_map]

/-- Witness for C8 on a concrete two-account store. -/
theorem resetBalance_idempotent_witness :
    (∀ u ∈ UserRepository.resetBalance [⟨"user1", 7⟩, ⟨"user2", 3⟩],
      u.balance = 0) ∧
    (∀ u ∈ UserRepository.resetBalance
        (UserRepository.resetBalance [⟨"user1", 7⟩, ⟨"user2", 3⟩]),
      u.balance = 0) ∧
    UserRepository.resetBalance
        (UserRepository.resetBalance [⟨"user1", 7⟩, ⟨"user2", 3⟩]) =
      UserRepository.resetBalance [⟨"user1", 7⟩, ⟨"user2", 3⟩] :=
  resetBalance_idempotent [⟨"user1", 7⟩, ⟨"user2", 3⟩]

/-- C9: when the underlying balance reset fails with any error `e`, the
consumer's `process` logs the start line and the error line (carrying `e`
itself) and rethrows exactly `e`; the success line is not emitted and no
error is swallowed. -/
theorem process_propagates_error (E : Type) (e : E) :
    BalanceResetConsumer.process (Except.error e) =
      (Except.error e,
       [LogEvent.info "Starting reset balances job...",
        LogEvent.errorWith "Error resetting balances:" e]) :=
  rfl
